import Mathlib

/-
Verification of the qcc-lsp diagnostic layer.

This file gives a shallow embedding, in Lean 4, of the pure logic of the
qcc-lsp repository (a Language Server Protocol layer for the Basilisk C
dialect): the compiler-invocation argument builder, the GCC-style output
line parser, the diagnostic deduplication and publication pipeline, the
settings merge, the clangd notification queue and wire framing, and the
command-line checker's flag parsing and exit-code logic.

Conventions used throughout:
- JavaScript strings are modelled as Lean String / List Char; byte buffers
  (Node Buffer) as List Nat with entries below 256.
- JavaScript "number" fields that can hold NaN (the result of parseInt on a
  non-numeric string) are modelled as Option Int, with none standing for NaN.
- TypeScript optional object fields (absent keys) are modelled as Option;
  object spread with a present key corresponds to Option.getD.
- Filesystem probes and subprocess results are inputs to the modelled
  functions, since they cross the process boundary; everything computed in
  process is embedded from the source.
- Each definition carries a comment naming the source file and function it
  is translated from.
-/

set_option autoImplicit false
set_option linter.unusedVariables false

namespace QccLsp

/-! Character classes used by the JavaScript regular expressions and string
functions that the source relies on. -/

/-- ECMAScript word character, the \w class used by \b word boundaries:
ASCII letters, digits and underscore. -/
def isWordChar (c : Char) : Bool :=
  ('a' ≤ c && c ≤ 'z') || ('A' ≤ c && c ≤ 'Z') || ('0' ≤ c && c ≤ '9') || c = '_'

/-- ECMAScript whitespace, the \s class (and the set trimmed by
String.prototype.trim): tab, line feed, vertical tab, form feed, carriage
return, space, and the Unicode space separators recognised by JavaScript. -/
def isJsWs (c : Char) : Bool :=
  c.toNat = 9 || c.toNat = 10 || c.toNat = 11 || c.toNat = 12 || c.toNat = 13 ||
  c.toNat = 32 || c.toNat = 160 || c.toNat = 5760 ||
  (8192 ≤ c.toNat && c.toNat ≤ 8202) ||
  c.toNat = 8232 || c.toNat = 8233 || c.toNat = 8239 || c.toNat = 8287 ||
  c.toNat = 12288 || c.toNat = 65279

/-- ECMAScript line terminators; the dot of a regular expression without the
s flag matches every character except these. -/
def isLineTerm (c : Char) : Bool :=
  c.toNat = 10 || c.toNat = 13 || c.toNat = 8232 || c.toNat = 8233

/-- Character matched by an unguarded regular-expression dot. -/
def isDotChar (c : Char) : Bool := !isLineTerm c

/-- ASCII decimal digit, the \d class. -/
def isDigitChar (c : Char) : Bool := '0' ≤ c && c ≤ '9'

/-- Numeric value of a list of ASCII digit characters, as produced by
parseInt(s, 10) on a pure digit string (most significant digit first). -/
def digitsVal (ds : List Char) : Nat :=
  ds.foldl (fun a d => a * 10 + (d.toNat - 48)) 0

/-- Exact prefix test on character lists (the characters of a string
literal appearing at the start of the scanned text). -/
def litAt (lit : List Char) (s : List Char) : Bool :=
  match lit, s with
  | [], _ => true
  | _ :: _, [] => false
  | l :: ls, c :: cs => l = c && litAt ls cs

/-- Rest of the text after an exact literal prefix, or none. -/
def dropLit (lit : List Char) (s : List Char) : Option (List Char) :=
  match lit, s with
  | [], rest => some rest
  | _ :: _, [] => none
  | l :: ls, c :: cs => if l = c then dropLit ls cs else none

/-- Substring test, the semantics of String.prototype.includes. -/
def containsSeq (needle : List Char) : List Char → Bool
  | [] => needle.isEmpty
  | c :: rest => litAt needle (c :: rest) || containsSeq needle rest

/-- String.prototype.includes on Lean strings. -/
def strIncludes (hay needle : String) : Bool :=
  containsSeq needle.toList hay.toList

/-- Split on a separator character, keeping empty segments; the current
segment is accumulated in reverse. -/
def splitSepGo (sep : Char) : List Char → List Char → List String
  | cur, [] => [⟨cur.reverse⟩]
  | cur, c :: rest =>
    if c = sep then ⟨cur.reverse⟩ :: splitSepGo sep [] rest
    else splitSepGo sep (c :: cur) rest

/-- JavaScript String.prototype.split with a one-character separator: every
occurrence separates, empty segments are kept, the empty string yields one
empty segment. -/
def splitLines (s : String) : List String :=
  splitSepGo '\n' [] s.toList

/-! Core diagnostic data model. -/

/-- LSP diagnostic as produced and consumed by the server: a range given by
zero-based start and end positions, an optional numeric severity (1 error,
2 warning, 3 information, 4 hint), a message, and an optional source tag
naming the producer (the origin). Mirrors the vscode-languageserver
Diagnostic shape used throughout the source. -/
structure Diagnostic where
  startLine : Nat
  startCharacter : Nat
  endLine : Nat
  endCharacter : Nat
  severity : Option Nat
  message : String
  source : Option String
deriving DecidableEq, Repr

/-- Array.prototype.slice(0, end) on diagnostic lists, for a JavaScript
number end value: non-negative end keeps the first end elements, negative
end counts back from the length, clamped at zero. Used for the
maxNumberOfProblems truncation. -/
def sliceTo (endIdx : Int) (l : List Diagnostic) : List Diagnostic :=
  if 0 ≤ endIdx then l.take endIdx.toNat
  else l.take (Int.toNat ((l.length : Int) + endIdx))

/-- Array.prototype.join with a colon separator, as used to build the
deduplication key. -/
def joinColon : List String → String
  | [] => ""
  | [x] => x
  | x :: rest => x ++ ":" ++ joinColon rest

/-- Deduplication key of a diagnostic: the source joins start line, start
character, end line, end character, severity (empty when absent), message,
and source (empty when absent) with a colon separator.
From dedupeDiagnostics in the server (and, identically, in the CLI checker). -/
def diagnosticKey (d : Diagnostic) : String :=
  joinColon
    [toString d.startLine, toString d.startCharacter,
     toString d.endLine, toString d.endCharacter,
     (match d.severity with | some n => toString n | none => ""),
     d.message,
     (match d.source with | some s => s | none => "")]

/-- Loop body of dedupeDiagnostics: walk the list, keep the first
occurrence of every key, remember seen keys. -/
def dedupeDiagnosticsGo (seen : List String) : List Diagnostic → List Diagnostic
  | [] => []
  | d :: rest =>
    if diagnosticKey d ∈ seen then dedupeDiagnosticsGo seen rest
    else d :: dedupeDiagnosticsGo (diagnosticKey d :: seen) rest

/-- Deduplicate a diagnostic list by key, keeping first occurrences in
order. From dedupeDiagnostics in the server and in the CLI checker. -/
def dedupeDiagnostics (diagnostics : List Diagnostic) : List Diagnostic :=
  dedupeDiagnosticsGo [] diagnostics

/-! Settings data model and layered merge. -/

/-- Mode of the clangd integration, from the ClangdMode union type. -/
inductive ClangdMode where
  | proxy
  | augment
  | disabled
deriving DecidableEq, Repr

/-- Policy applied to clangd diagnostics before publication, from the
diagnosticsMode union type. -/
inductive DiagnosticsMode where
  | all
  | filtered
  | none
deriving DecidableEq, Repr

/-- Compiler-specific settings group, from the QccSettings interface. -/
structure QccSettings where
  includePaths : List String
deriving DecidableEq, Repr

/-- Analyzer settings group, from the ClangdSettings interface. -/
structure ClangdSettings where
  enabled : Bool
  mode : ClangdMode
  path : String
  args : List String
  compileCommandsDir : String
  fallbackFlags : List String
  diagnosticsMode : DiagnosticsMode
deriving DecidableEq, Repr

/-- Full settings value threaded through the server, from the
BasiliskSettings interface. The maxNumberOfProblems field is a JavaScript
number and may be non-positive when supplied by a client, hence Int. -/
structure BasiliskSettings where
  qccPath : String
  basiliskPath : String
  enableDiagnostics : Bool
  diagnosticsOnSave : Bool
  diagnosticsOnType : Bool
  maxNumberOfProblems : Int
  qcc : QccSettings
  clangd : ClangdSettings
deriving DecidableEq, Repr

/-- Overlay for the analyzer settings group: every key optional, from
Partial of ClangdSettings inside BasiliskSettingsInput. -/
structure ClangdSettingsInput where
  enabled : Option Bool := Option.none
  mode : Option ClangdMode := Option.none
  path : Option String := Option.none
  args : Option (List String) := Option.none
  compileCommandsDir : Option String := Option.none
  fallbackFlags : Option (List String) := Option.none
  diagnosticsMode : Option DiagnosticsMode := Option.none
deriving DecidableEq, Repr

/-- Overlay for the compiler settings group, from the qcc component of
BasiliskSettingsInput. -/
structure QccSettingsInput where
  includePaths : Option (List String) := Option.none
deriving DecidableEq, Repr

/-- Partial settings overlay, from the BasiliskSettingsInput type: every
top-level key optional, with nested optional qcc and clangd groups. -/
structure BasiliskSettingsInput where
  qccPath : Option String := Option.none
  basiliskPath : Option String := Option.none
  enableDiagnostics : Option Bool := Option.none
  diagnosticsOnSave : Option Bool := Option.none
  diagnosticsOnType : Option Bool := Option.none
  maxNumberOfProblems : Option Int := Option.none
  qcc : Option QccSettingsInput := Option.none
  clangd : Option ClangdSettingsInput := Option.none
deriving DecidableEq, Repr

/-- Default settings, from the defaultSettings constant in diagnostics.ts. -/
def defaultSettings : BasiliskSettings :=
  { qccPath := "qcc"
    basiliskPath := ""
    enableDiagnostics := true
    diagnosticsOnSave := true
    diagnosticsOnType := false
    maxNumberOfProblems := 100
    qcc := { includePaths := [] }
    clangd :=
      { enabled := true
        mode := ClangdMode.proxy
        path := "clangd"
        args := []
        compileCommandsDir := ""
        fallbackFlags := []
        diagnosticsMode := DiagnosticsMode.filtered } }

/-- Loop of mergeStringArrays (and of the include-directory loop in
runDiagnostics): keep entries that are non-empty and not seen before, in
order. The falsiness test !entry skips the empty string. -/
def dedupeNonEmptyGo (seen : List String) : List String → List String
  | [] => []
  | e :: rest =>
    if e = "" ∨ e ∈ seen then dedupeNonEmptyGo seen rest
    else e :: dedupeNonEmptyGo (e :: seen) rest

/-- First-occurrence deduplication of strings, dropping empty entries. -/
def dedupeNonEmpty (entries : List String) : List String :=
  dedupeNonEmptyGo [] entries

/-- Merge of two string arrays, from mergeStringArrays in the server (and,
identically, in the CLI checker): when the secondary array is absent or
empty the primary is returned verbatim; otherwise the concatenation
primary then secondary is deduplicated, dropping empty entries. -/
def mergeStringArrays (primary : List String) (secondary : Option (List String)) :
    List String :=
  match secondary with
  | Option.none => primary
  | Option.some sec => if sec.isEmpty then primary else dedupeNonEmpty (primary ++ sec)

/-- Layered settings merge, from mergeSettings in the server (and,
identically, in the CLI checker): object spread of the overlay over the
base for every top-level key and every key of the clangd group, except
that qcc.includePaths is combined with mergeStringArrays. -/
def mergeSettings (base : BasiliskSettings) (ovl : BasiliskSettingsInput) :
    BasiliskSettings :=
  { qccPath := ovl.qccPath.getD base.qccPath
    basiliskPath := ovl.basiliskPath.getD base.basiliskPath
    enableDiagnostics := ovl.enableDiagnostics.getD base.enableDiagnostics
    diagnosticsOnSave := ovl.diagnosticsOnSave.getD base.diagnosticsOnSave
    diagnosticsOnType := ovl.diagnosticsOnType.getD base.diagnosticsOnType
    maxNumberOfProblems := ovl.maxNumberOfProblems.getD base.maxNumberOfProblems
    qcc :=
      { includePaths :=
          mergeStringArrays base.qcc.includePaths
            (ovl.qcc.bind (fun q => q.includePaths)) }
    clangd :=
      { enabled := (ovl.clangd.bind (fun c => c.enabled)).getD base.clangd.enabled
        mode := (ovl.clangd.bind (fun c => c.mode)).getD base.clangd.mode
        path := (ovl.clangd.bind (fun c => c.path)).getD base.clangd.path
        args := (ovl.clangd.bind (fun c => c.args)).getD base.clangd.args
        compileCommandsDir :=
          (ovl.clangd.bind (fun c => c.compileCommandsDir)).getD
            base.clangd.compileCommandsDir
        fallbackFlags :=
          (ovl.clangd.bind (fun c => c.fallbackFlags)).getD base.clangd.fallbackFlags
        diagnosticsMode :=
          (ovl.clangd.bind (fun c => c.diagnosticsMode)).getD
            base.clangd.diagnosticsMode } }

/-! Compiler invocation argument list, from runDiagnostics in
diagnostics.ts. -/

/-- Include directories collected before deduplication, from runDiagnostics:
the document's own directory when non-empty and different from the temp
directory, then the discovered src-local directory when present (a
JavaScript truthiness test, so the empty string is also skipped) and
different from both, then the configured include paths. -/
def rawIncludeDirs (originalDir : String) (srcLocalDir : Option String)
    (tempDir : String) (includePaths : List String) : List String :=
  (if originalDir ≠ "" ∧ originalDir ≠ tempDir then [originalDir] else []) ++
  (match srcLocalDir with
   | Option.some s =>
     if s ≠ "" ∧ s ≠ tempDir ∧ s ≠ originalDir then [s] else []
   | Option.none => []) ++
  includePaths

/-- Argument list of the qcc invocation built by runDiagnostics: the fixed
warning and syntax-only flags, then for each first occurrence of a
non-empty include directory the two tokens "-I" and the directory (the
source pushes them as two separate array entries), then the temp file
basename. -/
def buildQccArgs (originalDir : String) (srcLocalDir : Option String)
    (tempDir : String) (includePaths : List String) (tempBase : String) :
    List String :=
  ["-Wall", "-fsyntax-only"] ++
  (dedupeNonEmpty (rawIncludeDirs originalDir srcLocalDir tempDir includePaths)).flatMap
    (fun d => ["-I", d]) ++
  [tempBase]

/-! Basilisk syntax detection and clangd diagnostic filtering, from
basiliskDetect.ts with the token tables of basiliskLanguage. -/

/-- Basilisk token table, the concatenation CONTROL_KEYWORDS, FIELD_TYPES,
CONSTANTS, LOOP_VARIABLES from basiliskLanguage, in source order, as joined
into the word-bounded alternation BASILISK_TOKEN_REGEX. -/
def basiliskTokens : List String :=
  ["event", "foreach", "foreach_face", "foreach_boundary", "foreach_vertex",
   "foreach_dimension", "foreach_level", "foreach_leaf", "foreach_neighbor",
   "foreach_cell", "foreach_child", "foreach_block", "foreach_blockf",
   "foreach_block_inner", "foreach_point", "foreach_cache",
   "foreach_cache_level", "foreach_stencil", "reduction",
   "scalar", "vector", "tensor", "face", "vertex", "symmetric", "coord",
   "point",
   "PI", "M_PI", "HUGE", "nodata", "true", "false", "NULL", "BGHOSTS",
   "GHOSTS", "TRASH", "N", "L0", "X0", "Y0", "Z0", "DT", "TOLERANCE",
   "NITERMAX", "NITERMIN",
   "x", "y", "z", "Delta", "level", "depth", "t", "dt", "i", "point",
   "child", "neighbor", "left", "right", "top", "bottom", "front", "back",
   "fm", "cm", "cs"]

/-- Word-bounded occurrence of a token at the head of the scanned text: the
token characters appear verbatim and the following character, if any, is
not a word character (the trailing \b of BASILISK_TOKEN_REGEX; every token
consists of word characters only). -/
def wordTokenAt (tok : List Char) (s : List Char) : Bool :=
  match dropLit tok s with
  | Option.none => false
  | Option.some [] => true
  | Option.some (d :: _) => !isWordChar d

/-- Scan for a word-bounded occurrence of a token anywhere in the text,
tracking whether the previous character was a word character (the leading
\b: the occurrence must not be preceded by a word character). -/
def hasWordOccurGo (tok : List Char) (prevIsWord : Bool) : List Char → Bool
  | [] => false
  | c :: rest =>
    (!prevIsWord && wordTokenAt tok (c :: rest)) ||
    hasWordOccurGo tok (isWordChar c) rest

/-- Test of the word-bounded token regular expression on a string. -/
def hasWordToken (tok : String) (text : String) : Bool :=
  hasWordOccurGo tok.toList false text.toList

/-- Alternatives of the include-directive regular expression
BASILISK_INCLUDE_REGEX in basiliskDetect.ts. -/
def includeAlternatives : List String :=
  ["grid/", "navier-stokes/", "two-phase", "two-phase-generic", "vof", "run",
   "events", "common", "utils", "embed", "curvature", "fractions",
   "conservation", "view", "output", "draw"]

/-- Match of BASILISK_INCLUDE_REGEX anchored at the head of the scanned
text: a hash, optional whitespace, the word include, optional whitespace,
an opening angle bracket or double quote, one of the alternatives, then
the literal .h suffix. -/
def includeMatchAt (s : List Char) : Bool :=
  match s with
  | '#' :: r1 =>
    match dropLit "include".toList (r1.dropWhile isJsWs) with
    | Option.none => false
    | Option.some r3 =>
      match r3.dropWhile isJsWs with
      | c :: r5 =>
        (c = '<' || c = '"') &&
        includeAlternatives.any (fun alt =>
          match dropLit alt.toList r5 with
          | Option.none => false
          | Option.some r6 => litAt ".h".toList r6)
      | [] => false
  | _ => false

/-- Unanchored test of a head-anchored matcher: try every start position. -/
def scanAny (p : List Char → Bool) : List Char → Bool
  | [] => p []
  | c :: rest => p (c :: rest) || scanAny p rest

/-- Test of BASILISK_INCLUDE_REGEX on a string. -/
def includeRegexTest (text : String) : Bool :=
  scanAny includeMatchAt text.toList

/-- ASCII lowercase fold, the canonicalisation applied by a
case-insensitive JavaScript regular expression over its ASCII pattern. -/
def toLowerAscii (c : Char) : Char :=
  if 'A' ≤ c && c ≤ 'Z' then Char.ofNat (c.toNat + 32) else c

/-- Case-insensitive substring test: the noise patterns contain no
regular-expression metacharacters, so their case-insensitive test is a
case-insensitive containment check. -/
def ciIncludes (pat : String) (text : String) : Bool :=
  containsSeq (pat.toList.map toLowerAscii) (text.toList.map toLowerAscii)

/-- Single quote character, kept out of string literals. -/
def squote : String := ⟨[Char.ofNat 39]⟩

/-- Noise message patterns, from NOISE_PATTERNS in basiliskDetect.ts (each
a case-insensitive literal). -/
def noisePatterns : List String :=
  ["unknown type name",
   "a type specifier is required",
   "expected " ++ squote ++ ";" ++ squote ++ " after top level declarator",
   "definition of variable with array type needs an explicit size",
   "use of undeclared identifier"]

/-- Test whether a text contains Basilisk constructs, from
isLikelyBasiliskText: a word-bounded Basilisk token or a Basilisk include
directive. -/
def isLikelyBasiliskText (text : String) : Bool :=
  basiliskTokens.any (fun t => hasWordToken t text) || includeRegexTest text

/-- Per-line variant, from lineLikelyBasilisk. -/
def lineLikelyBasilisk (line : String) : Bool :=
  basiliskTokens.any (fun t => hasWordToken t line) || includeRegexTest line

/-- Filter clangd diagnostics against Basilisk noise, from
filterClangdDiagnostics in basiliskDetect.ts: when the text does not look
like Basilisk at all, pass everything through; otherwise drop every
diagnostic whose start line looks like Basilisk and whose message matches
one of the noise patterns. -/
def filterClangdDiagnostics (diagnostics : List Diagnostic) (text : String) :
    List Diagnostic :=
  if !isLikelyBasiliskText text then diagnostics
  else
    let lines := splitLines text
    diagnostics.filter (fun d =>
      let line := lines.getD d.startLine ""
      if !lineLikelyBasilisk line then true
      else !(noisePatterns.any (fun p => ciIncludes p d.message)))

/-! Per-document reconciler state, from the module-level maps of the
server: localDiagnosticsVersion, localDiagnostics, clangdDiagnostics,
clangdDiagnosticsGeneration, plus the last diagnostic set sent to the
editor with connection.sendDiagnostics. Absent map entries are none. -/

/-- State the server keeps for one open document. -/
structure DocumentStore where
  localVersion : Option Int
  localDiags : Option (List Diagnostic)
  clangdDiags : Option (List Diagnostic)
  clangdGeneration : Option Nat
  published : Option (List Diagnostic)
deriving DecidableEq, Repr

/-- Publication step, from publishDiagnostics in the server: merge the
clangd cache then the local cache (absent caches count as empty),
deduplicate, truncate to maxNumberOfProblems, and send the result as the
document's complete diagnostic set. -/
def publishDiagnostics (settings : BasiliskSettings) (st : DocumentStore) :
    DocumentStore :=
  { st with
      published :=
        Option.some
          (sliceTo settings.maxNumberOfProblems
            (dedupeDiagnostics ((st.clangdDiags.getD []) ++ (st.localDiags.getD [])))) }

/-- Version stamp taken by validateTextDocument before awaiting the local
diagnostics: the document version at validation start is written to the
localDiagnosticsVersion map. -/
def validateStamp (st : DocumentStore) (version : Int) : DocumentStore :=
  { st with localVersion := Option.some version }

/-- Completion of validateTextDocument after the awaited local diagnostics
arrive: when the stamped version is no longer the one this validation
recorded, the result is dropped; otherwise it is stored and the document's
diagnostics are published. -/
def validateComplete (settings : BasiliskSettings) (st : DocumentStore)
    (version : Int) (diagnostics : List Diagnostic) : DocumentStore :=
  if st.localVersion = Option.some version then
    publishDiagnostics settings { st with localDiags := Option.some diagnostics }
  else st

/-- Synchronous part of the onDiagnostics handler: the generation counter
for the document is incremented (an absent entry counts as zero) and the
new generation is captured for the asynchronous continuation. -/
def clangdArrivalStamp (st : DocumentStore) : Nat × DocumentStore :=
  let generation := st.clangdGeneration.getD 0 + 1
  (generation, { st with clangdGeneration := Option.some generation })

/-- Diagnostics-mode policy of the onDiagnostics handler: none discards
everything, filtered applies filterClangdDiagnostics when the document is
still open (its text is available) and passes through otherwise, all
passes through. -/
def applyDiagnosticsPolicy (mode : DiagnosticsMode) (docText : Option String)
    (normalized : List Diagnostic) : List Diagnostic :=
  match mode with
  | DiagnosticsMode.none => []
  | DiagnosticsMode.filtered =>
    match docText with
    | Option.some text => filterClangdDiagnostics normalized text
    | Option.none => normalized
  | DiagnosticsMode.all => normalized

/-- Asynchronous continuation of the onDiagnostics handler, run after the
settings lookup resolves: when the captured generation is no longer the
latest the arrival is discarded; otherwise the policy result is cached and,
when diagnosticsOnType is enabled in the resolved settings, the document's
diagnostics are republished. -/
def clangdArrivalComplete (settings : BasiliskSettings) (docText : Option String)
    (st : DocumentStore) (generation : Nat) (normalized : List Diagnostic) :
    DocumentStore :=
  if st.clangdGeneration ≠ Option.some generation then st
  else
    let st2 :=
      { st with
          clangdDiags :=
            Option.some
              (applyDiagnosticsPolicy settings.clangd.diagnosticsMode docText
                normalized) }
    if settings.diagnosticsOnType then publishDiagnostics settings st2 else st2

/-! Notification queue of the clangd client, from ClangdClient in
clangdClient.ts: ready flag, queued notifications, and the wire-order log
of notifications written to the child process. -/

/-- JSON-RPC notification: a method name and an opaque rendering of the
params payload. -/
structure JsonRpcNotification where
  method : String
  params : String
deriving DecidableEq, Repr

/-- Notification-relevant state of a ClangdClient instance. -/
structure NotifyState where
  ready : Bool
  queuedNotifications : List JsonRpcNotification
  sent : List JsonRpcNotification
deriving DecidableEq, Repr

/-- State of a freshly constructed client: not ready, nothing queued,
nothing sent. -/
def initialNotifyState : NotifyState :=
  { ready := false, queuedNotifications := [], sent := [] }

/-- ClangdClient.notify: before readiness the notification is appended to
the queue; once ready it is sent immediately. -/
def notify (st : NotifyState) (message : JsonRpcNotification) : NotifyState :=
  if !st.ready then
    { st with queuedNotifications := st.queuedNotifications ++ [message] }
  else { st with sent := st.sent ++ [message] }

/-- ClangdClient.flushNotifications: when ready, send every queued
notification in order and clear the queue. -/
def flushNotifications (st : NotifyState) : NotifyState :=
  if !st.ready then st
  else
    { st with
        sent := st.sent ++ st.queuedNotifications,
        queuedNotifications := [] }

/-- Notification sent right after the initialize response (its params are
the empty object). -/
def initializedNotification : JsonRpcNotification :=
  { method := "initialized", params := "" }

/-- Tail of ClangdClient.initialize after the initialize response arrives:
mark ready, send the initialized notification through notify, then flush
the queued notifications. -/
def onInitializeResponse (st : NotifyState) : NotifyState :=
  flushNotifications (notify { st with ready := true } initializedNotification)

/-! GCC-style compiler output parsing, from parseGccOutput in
diagnostics.ts. The three patterns are anchored regular expressions; the
embedding reproduces their backtracking semantics:
- the lazy leading group (.+?) tries the shortest file component first,
  its dot never crossing a line terminator;
- each greedy (\d+) or \s* run is committed, because the character that
  follows it in the pattern can never belong to the run it follows;
- the trailing \s*(.+)$ matches the rest after the maximal whitespace run
  when that rest is non-empty and free of line terminators, and otherwise
  falls back to giving the final whitespace character to the dot group. -/

/-- Severity keyword of the first two patterns. -/
inductive GccSeverity where
  | error
  | warning
  | note
deriving DecidableEq, Repr

/-- Parsed compiler diagnostic, from the ParsedDiagnostic interface: file
component, one-based line and column, severity, message. -/
structure ParsedDiagnostic where
  file : String
  line : Nat
  column : Nat
  severity : GccSeverity
  message : String
deriving DecidableEq, Repr

/-- Match of a trailing \s*(.+)$ group: the maximal whitespace run is
dropped and the rest is the message when it is non-empty and free of line
terminators; when the whole text is whitespace, the regular expression
backtracks one character and the message is the final whitespace character
provided the dot can match it. -/
def matchWsDotPlus (t : List Char) : Option (List Char) :=
  let r := t.dropWhile isJsWs
  if r.isEmpty then
    match t.getLast? with
    | Option.none => Option.none
    | Option.some c => if isDotChar c then Option.some [c] else Option.none
  else if r.all isDotChar then Option.some r else Option.none

/-- Match of (error|warning|note): at the head of the text. The three
keywords start with distinct characters, so the alternation is committed. -/
def matchSevColon (s : List Char) : Option (GccSeverity × List Char) :=
  match dropLit "error".toList s with
  | Option.some (':' :: r) => Option.some (GccSeverity.error, r)
  | _ =>
    match dropLit "warning".toList s with
    | Option.some (':' :: r) => Option.some (GccSeverity.warning, r)
    | _ =>
      match dropLit "note".toList s with
      | Option.some (':' :: r) => Option.some (GccSeverity.note, r)
      | _ => Option.none

/-- Match of \s*(error|warning|note):\s*(.+)$ at the head of the text. The
maximal whitespace run is committed because no keyword starts with a
whitespace character. -/
def matchWsSevMsg (s : List Char) : Option (GccSeverity × List Char) :=
  match matchSevColon (s.dropWhile isJsWs) with
  | Option.none => Option.none
  | Option.some (sev, rest) =>
    match matchWsDotPlus rest with
    | Option.none => Option.none
    | Option.some msg => Option.some (sev, msg)

/-- Tail of the first pattern after the separator colon:
(\d+):(\d+):\s*(error|warning|note):\s*(.+)$. -/
def gccTailFull (s : List Char) : Option (Nat × Nat × GccSeverity × List Char) :=
  let d1 := s.takeWhile isDigitChar
  if d1.isEmpty then Option.none
  else
    match s.dropWhile isDigitChar with
    | ':' :: r2 =>
      let d2 := r2.takeWhile isDigitChar
      if d2.isEmpty then Option.none
      else
        match r2.dropWhile isDigitChar with
        | ':' :: r4 =>
          match matchWsSevMsg r4 with
          | Option.some (sev, msg) =>
            Option.some (digitsVal d1, digitsVal d2, sev, msg)
          | Option.none => Option.none
        | _ => Option.none
    | _ => Option.none

/-- Tail of the second pattern after the separator colon:
(\d+):\s*(error|warning|note):\s*(.+)$. -/
def gccTailNoCol (s : List Char) : Option (Nat × GccSeverity × List Char) :=
  let d1 := s.takeWhile isDigitChar
  if d1.isEmpty then Option.none
  else
    match s.dropWhile isDigitChar with
    | ':' :: r2 =>
      match matchWsSevMsg r2 with
      | Option.some (sev, msg) => Option.some (digitsVal d1, sev, msg)
      | Option.none => Option.none
    | _ => Option.none

/-- Tail of the third pattern after the separator colon: (\d+):\s*(.+)$. -/
def gccTailBare (s : List Char) : Option (Nat × List Char) :=
  let d1 := s.takeWhile isDigitChar
  if d1.isEmpty then Option.none
  else
    match s.dropWhile isDigitChar with
    | ':' :: r2 =>
      match matchWsDotPlus r2 with
      | Option.some msg => Option.some (digitsVal d1, msg)
      | Option.none => Option.none
    | _ => Option.none

/-- Lazy split of the anchored ^(.+?): group: candidate split positions are
tried left to right; the accumulated file component is non-empty, never
contains a line terminator, and the first position whose tail matches the
rest of the pattern wins. -/
def scanFileSplit {α : Type} (tailMatch : List Char → Option α) :
    List Char → List Char → Option (List Char × α)
  | _, [] => Option.none
  | acc, c :: rest =>
    if isLineTerm c then Option.none
    else if c = ':' ∧ acc ≠ [] then
      match tailMatch rest with
      | Option.some v => Option.some (acc.reverse, v)
      | Option.none => scanFileSplit tailMatch (c :: acc) rest
    else scanFileSplit tailMatch (c :: acc) rest

/-- Match of the first pattern
^(.+?):(\d+):(\d+):\s*(error|warning|note):\s*(.+)$ against a whole line. -/
def matchGccFull (line : List Char) : Option ParsedDiagnostic :=
  match scanFileSplit gccTailFull [] line with
  | Option.some (file, (l, c, sev, msg)) =>
    Option.some
      { file := ⟨file⟩, line := l, column := c, severity := sev,
        message := ⟨msg⟩ }
  | Option.none => Option.none

/-- Match of the second pattern
^(.+?):(\d+):\s*(error|warning|note):\s*(.+)$ against a whole line; the
column defaults to one. -/
def matchGccNoCol (line : List Char) : Option ParsedDiagnostic :=
  match scanFileSplit gccTailNoCol [] line with
  | Option.some (file, (l, sev, msg)) =>
    Option.some
      { file := ⟨file⟩, line := l, column := 1, severity := sev,
        message := ⟨msg⟩ }
  | Option.none => Option.none

/-- Match of the third pattern ^(.+?):(\d+):\s*(.+)$ against a whole line,
before the error-indicator gate is applied. -/
def matchGccBare (line : List Char) : Option (String × Nat × String) :=
  match scanFileSplit gccTailBare [] line with
  | Option.some (file, (l, msg)) => Option.some (⟨file⟩, l, ⟨msg⟩)
  | Option.none => Option.none

/-- Substrings whose presence in the line admits a bare file:line: message
diagnostic, from the gate in parseGccOutput. -/
def errorIndicators : List String := ["error", "undefined", "undeclared"]

/-- Per-line step of parseGccOutput: the three patterns are tried in order
and the first match wins; a line matching only the bare pattern produces an
error diagnostic with column one exactly when the line contains one of the
error indicators. -/
def parseGccLine (line : String) : Option ParsedDiagnostic :=
  match matchGccFull line.toList with
  | Option.some d => Option.some d
  | Option.none =>
    match matchGccNoCol line.toList with
    | Option.some d => Option.some d
    | Option.none =>
      match matchGccBare line.toList with
      | Option.some (f, l, msg) =>
        if errorIndicators.any (fun ind => strIncludes line ind) then
          Option.some
            { file := f, line := l, column := 1,
              severity := GccSeverity.error, message := msg }
        else Option.none
      | Option.none => Option.none

/-- Parse combined compiler output, from parseGccOutput: split on newlines
and collect the per-line diagnostics in order. -/
def parseGccOutput (output : String) : List ParsedDiagnostic :=
  (splitLines output).filterMap parseGccLine

/-! Content-Length wire framing of the clangd client, from
ClangdClient.send and ClangdClient.handleData in clangdClient.ts. Byte
buffers are lists of byte values; the JSON payload of a message is the
UTF-8 byte sequence produced by JSON.stringify, treated opaquely (equal
payload bytes parse to deep-equal messages, since JSON.parse is a
function of the body text). -/

/-- Byte values of an ASCII string literal. -/
def asciiCodes (s : String) : List Nat := s.toList.map Char.toNat

/-- Decimal digit bytes of a number, most significant first, as produced by
JavaScript number-to-string interpolation; fuel-structured so that it
computes by kernel reduction (the fuel n + 1 always suffices). -/
def natDigitBytesAux : Nat → Nat → List Nat
  | 0, _ => []
  | fuel + 1, n =>
    if n < 10 then [48 + n]
    else natDigitBytesAux fuel (n / 10) ++ [48 + n % 10]

/-- Decimal digit bytes of a number. -/
def natDigitBytes (n : Nat) : List Nat := natDigitBytesAux (n + 1) n

/-- Numeric value of decimal digit bytes, most significant first. -/
def digitsValBytes (ds : List Nat) : Nat :=
  ds.foldl (fun a d => a * 10 + (d - 48)) 0

/-- Encoded wire frame of a message, from ClangdClient.send: the header
Content-Length: n followed by CRLFCRLF and the n payload bytes. -/
def encodeFrame (payload : List Nat) : List Nat :=
  asciiCodes "Content-Length: " ++ natDigitBytes payload.length ++
  [13, 10, 13, 10] ++ payload

/-- Index of the first CRLFCRLF terminator in a buffer, the semantics of
Buffer.prototype.indexOf with that four-byte needle. -/
def findTerm : List Nat → Option Nat
  | [] => Option.none
  | c :: rest =>
    if c :: rest.take 3 = [13, 10, 13, 10] then Option.some 0
    else (findTerm rest).map (· + 1)

/-- Whitespace bytes under the \s class after the ascii decoding of the
header (which masks every byte to seven bits, so the only reachable
whitespace code points are the ASCII ones). -/
def isWsByte (b : Nat) : Bool :=
  b = 9 || b = 10 || b = 11 || b = 12 || b = 13 || b = 32

/-- ASCII digit byte. -/
def isDigitByte (b : Nat) : Bool := 48 ≤ b && b ≤ 57

/-- ASCII lowercase fold on a byte, the canonicalisation of the
case-insensitive header regular expression. -/
def toLowerByte (b : Nat) : Nat := if 65 ≤ b && b ≤ 90 then b + 32 else b

/-- Bytes of the lowercase header keyword. -/
def clKeyword : List Nat := asciiCodes "content-length:"

/-- Case-insensitive literal prefix match on bytes. -/
def dropLitCI : List Nat → List Nat → Option (List Nat)
  | [], s => Option.some s
  | _ :: _, [] => Option.none
  | l :: ls, b :: bs => if toLowerByte b = l then dropLitCI ls bs else Option.none

/-- Match of the header regular expression Content-Length:\s*(\d+) (case
insensitive) anchored at the head of the decoded header: the keyword, a
maximal whitespace run (committed, since a digit is not whitespace), then
at least one digit. -/
def tryContentLengthAt (s : List Nat) : Option Nat :=
  match dropLitCI clKeyword s with
  | Option.none => Option.none
  | Option.some rest =>
    let ds := (rest.dropWhile isWsByte).takeWhile isDigitByte
    if ds.isEmpty then Option.none else Option.some (digitsValBytes ds)

/-- Leftmost match of the header regular expression: start positions are
tried left to right. -/
def findContentLength : List Nat → Option Nat
  | [] => Option.none
  | b :: rest =>
    match tryContentLengthAt (b :: rest) with
    | Option.some n => Option.some n
    | Option.none => findContentLength rest

/-- Frame-reassembly loop of ClangdClient.handleData: find the first
CRLFCRLF, decode the header before it with the ascii mask, read the
Content-Length; a header without a length drops the header and continues;
an incomplete body leaves the buffer untouched for the next chunk; a
complete body is extracted by exact byte count, dispatched, and the loop
continues on the remainder. Returns the dispatched bodies in order and the
remaining buffer. -/
def processBuffer (buffer : List Nat) : List (List Nat) × List Nat :=
  match hfind : findTerm buffer with
  | Option.none => ([], buffer)
  | Option.some headerEnd =>
    match findContentLength ((buffer.take headerEnd).map (· % 128)) with
    | Option.none => processBuffer (buffer.drop (headerEnd + 4))
    | Option.some messageLength =>
      if buffer.length < headerEnd + 4 + messageLength then ([], buffer)
      else
        let body := (buffer.drop (headerEnd + 4)).take messageLength
        let rest := processBuffer (buffer.drop (headerEnd + 4 + messageLength))
        (body :: rest.1, rest.2)
  termination_by buffer.length
  decreasing_by
  · have hb : buffer ≠ [] := by
      intro h
      rw [h] at hfind
      simp [findTerm] at hfind
    have hp : 0 < buffer.length := List.length_pos.mpr hb
    simp only [List.length_drop]
    omega
  · have hb : buffer ≠ [] := by
      intro h
      rw [h] at hfind
      simp [findTerm] at hfind
    have hp : 0 < buffer.length := List.length_pos.mpr hb
    simp only [List.length_drop]
    omega

/-- One data event, from ClangdClient.handleData: the chunk is appended to
the accumulated buffer and the reassembly loop runs. -/
def handleData (buffer : List Nat) (chunk : List Nat) :
    List (List Nat) × List Nat :=
  processBuffer (buffer ++ chunk)

/-- Feed a sequence of chunks through handleData starting from a given
dispatched-so-far list and buffer. -/
def feedFrom (st : List (List Nat) × List Nat) (chunks : List (List Nat)) :
    List (List Nat) × List Nat :=
  chunks.foldl
    (fun acc c =>
      let r := handleData acc.2 c
      (acc.1 ++ r.1, r.2))
    st

/-- Feed a sequence of chunks through a freshly constructed client (empty
buffer, nothing dispatched). -/
def feedChunks (chunks : List (List Nat)) : List (List Nat) × List Nat :=
  feedFrom ([], []) chunks

/-! Quick heuristic validation, from quickValidate in diagnostics.ts. -/

/-- Left cancellation of string append, via the underlying character
lists. -/
theorem strAppendLeftCancel {p s t : String} (h : p ++ s = p ++ t) : s = t := by
  have hd : (p ++ s).data = (p ++ t).data := by rw [h]
  simp only [String.data_append] at hd
  exact String.ext (List.append_cancel_left hd)

/-- The deduplication key splits as a source-independent part followed by
the rendered source component. -/
theorem diagnosticKey_source_split (d : Diagnostic) (s : Option String) :
    diagnosticKey { d with source := s } =
      diagnosticKey { d with source := Option.some "" } ++ s.getD "" := by
  cases s with
  | none => simp [diagnosticKey, joinColon]
  | some v => simp [diagnosticKey, joinColon, String.append_assoc]

/-- Diagnostics differing only in their rendered source component have
different keys. -/
theorem diagnosticKey_ne_of_source_ne (d : Diagnostic) {s1 s2 : Option String}
    (h : s1.getD "" ≠ s2.getD "") :
    diagnosticKey { d with source := s1 } ≠ diagnosticKey { d with source := s2 } := by
  intro heq
  rw [diagnosticKey_source_split d s1, diagnosticKey_source_split d s2] at heq
  exact h (strAppendLeftCancel heq)

/-- Folding notify over a not-ready client appends every notification to
the queue, in order, and sends nothing. -/
theorem foldl_notify_notReady (pre : List JsonRpcNotification) :
    ∀ st : NotifyState, st.ready = false →
      pre.foldl notify st = { st with queuedNotifications := st.queuedNotifications ++ pre } := by
  induction pre with
  | nil => intro st h; simp
  | cons n rest ih =>
    intro st h
    have hstep : notify st n = { st with queuedNotifications := st.queuedNotifications ++ [n] } := by
      simp [notify, h]
    simp only [List.foldl_cons, hstep]
    rw [ih _ (by simp [h])]
    simp

/-- Folding notify over a ready client sends every notification
immediately, in order, leaving the queue alone. -/
theorem foldl_notify_ready (post : List JsonRpcNotification) :
    ∀ st : NotifyState, st.ready = true →
      post.foldl notify st = { st with sent := st.sent ++ post } := by
  induction post with
  | nil => intro st h; simp
  | cons n rest ih =>
    intro st h
    have hstep : notify st n = { st with sent := st.sent ++ [n] } := by
      simp [notify, h]
    simp only [List.foldl_cons, hstep]
    rw [ih _ (by simp [h])]
    simp

/-- C9: every notification issued before the client is ready is enqueued
rather than sent; when the initialize response arrives the client marks
itself ready, sends the initialized notification, and then sends the
queued notifications exactly once in enqueue (FIFO) order; notifications
issued while ready are sent immediately, after them. -/
theorem c9_notify_queue_flush (pre post : List JsonRpcNotification) :
    (pre.foldl notify initialNotifyState).ready = false ∧
    (pre.foldl notify initialNotifyState).sent = [] ∧
    (pre.foldl notify initialNotifyState).queuedNotifications = pre ∧
    (onInitializeResponse (pre.foldl notify initialNotifyState)).ready = true ∧
    (onInitializeResponse (pre.foldl notify initialNotifyState)).queuedNotifications = [] ∧
    (onInitializeResponse (pre.foldl notify initialNotifyState)).sent =
      initializedNotification :: pre ∧
    (post.foldl notify (onInitializeResponse (pre.foldl notify initialNotifyState))).sent =
      initializedNotification :: (pre ++ post) := by
  have hq : pre.foldl notify initialNotifyState =
      { ready := false, queuedNotifications := pre, sent := [] } := by
    rw [foldl_notify_notReady pre initialNotifyState rfl]
    simp [initialNotifyState]
  have h2 : onInitializeResponse
      { ready := false, queuedNotifications := pre, sent := [] } =
      { ready := true, queuedNotifications := [],
        sent := initializedNotification :: pre } := by
    simp [onInitializeResponse, notify, flushNotifications]
  refine ⟨by rw [hq], by rw [hq], by rw [hq], by rw [hq, h2], by rw [hq, h2],
    by rw [hq, h2], ?_⟩
  rw [hq, h2, foldl_notify_ready post _ rfl]
  simp

/-- C2: a validation for an older document version that completes after a
newer version has stamped, stored and published leaves the state of the
newer version untouched: the stale completion is dropped and the stored
local diagnostics remain those of the newer version. -/
theorem c2_stale_validation_dropped (settings : BasiliskSettings)
    (st0 : DocumentStore) (v1 v2 : Int) (d1 d2 : List Diagnostic)
    (hne : v1 ≠ v2) :
    validateComplete settings
        (validateComplete settings (validateStamp (validateStamp st0 v1) v2) v2 d2)
        v1 d1 =
      validateComplete settings (validateStamp (validateStamp st0 v1) v2) v2 d2 ∧
    (validateComplete settings (validateStamp (validateStamp st0 v1) v2) v2 d2).localDiags =
      Option.some d2 := by
  have hv : (validateStamp (validateStamp st0 v1) v2).localVersion = Option.some v2 := rfl
  set st3 := validateComplete settings (validateStamp (validateStamp st0 v1) v2) v2 d2
    with hst3
  have h3 : st3.localVersion = Option.some v2 := by
    rw [hst3]
    simp [validateComplete, hv, publishDiagnostics, validateStamp]
  have hcond : ¬ (st3.localVersion = Option.some v1) := by
    rw [h3]
    simp
    omega
  constructor
  · rw [validateComplete, if_neg hcond]
  · rw [hst3]
    simp [validateComplete, hv, publishDiagnostics, validateStamp]

/-- C2 witness at concrete versions one and two. -/
theorem c2_stale_validation_dropped_witness :
    validateComplete defaultSettings
        (validateComplete defaultSettings
          (validateStamp
            (validateStamp
              { localVersion := Option.none, localDiags := Option.none,
                clangdDiags := Option.none, clangdGeneration := Option.none,
                published := Option.none } 1) 2)
          2 [{ startLine := 0, startCharacter := 0, endLine := 0, endCharacter := 1,
               severity := Option.some 1, message := "e", source := Option.some "qcc" }])
        1 [] =
      validateComplete defaultSettings
        (validateStamp
          (validateStamp
            { localVersion := Option.none, localDiags := Option.none,
              clangdDiags := Option.none, clangdGeneration := Option.none,
              published := Option.none } 1) 2)
        2 [{ startLine := 0, startCharacter := 0, endLine := 0, endCharacter := 1,
             severity := Option.some 1, message := "e", source := Option.some "qcc" }] :=
  (c2_stale_validation_dropped defaultSettings
    { localVersion := Option.none, localDiags := Option.none,
      clangdDiags := Option.none, clangdGeneration := Option.none,
      published := Option.none } 1 2 []
    [{ startLine := 0, startCharacter := 0, endLine := 0, endCharacter := 1,
       severity := Option.some 1, message := "e", source := Option.some "qcc" }]
    (by decide)).1

/-- C3 counterexample: two diagnostics that differ only in their origin (an
absent source against an empty-string source) are collapsed to one entry,
because the key renders both origins as the empty component; the claim
promises that both are kept whenever only the origin differs. -/
theorem c3_dedupe_counterexample :
    ({ startLine := 0, startCharacter := 0, endLine := 0, endCharacter := 1,
       severity := Option.some 1, message := "m", source := Option.none } : Diagnostic) ≠
      { startLine := 0, startCharacter := 0, endLine := 0, endCharacter := 1,
        severity := Option.some 1, message := "m", source := Option.some "" } ∧
    dedupeDiagnostics
        [{ startLine := 0, startCharacter := 0, endLine := 0, endCharacter := 1,
           severity := Option.some 1, message := "m", source := Option.none },
         { startLine := 0, startCharacter := 0, endLine := 0, endCharacter := 1,
           severity := Option.some 1, message := "m", source := Option.some "" }] =
      [{ startLine := 0, startCharacter := 0, endLine := 0, endCharacter := 1,
         severity := Option.some 1, message := "m", source := Option.none }] := by
  decide

/-- C3 (amended): deduplication keeps exactly one of two identical entries
(same range, severity, message and origin), and keeps both entries that
differ only in origin provided the two origins render to different key
components (absent origins render as the empty string, so an absent origin
and an empty-string origin are identified). -/
theorem c3_dedupe_pair :
    (∀ d : Diagnostic, dedupeDiagnostics [d, d] = [d]) ∧
    (∀ (d : Diagnostic) (s1 s2 : Option String), s1.getD "" ≠ s2.getD "" →
      dedupeDiagnostics [{ d with source := s1 }, { d with source := s2 }] =
        [{ d with source := s1 }, { d with source := s2 }]) := by
  constructor
  · intro d
    simp [dedupeDiagnostics, dedupeDiagnosticsGo]
  · intro d s1 s2 h
    have hk := diagnosticKey_ne_of_source_ne d h
    simp [dedupeDiagnostics, dedupeDiagnosticsGo, hk, Ne.symm hk]

/-- C3 witness: a duplicate pair collapses, a pair differing in rendered
origin survives. -/
theorem c3_dedupe_pair_witness :
    dedupeDiagnostics
        [{ startLine := 0, startCharacter := 0, endLine := 0, endCharacter := 1,
           severity := Option.some 1, message := "m", source := Option.some "qcc" },
         { startLine := 0, startCharacter := 0, endLine := 0, endCharacter := 1,
           severity := Option.some 1, message := "m", source := Option.some "clangd" }] =
      [{ startLine := 0, startCharacter := 0, endLine := 0, endCharacter := 1,
         severity := Option.some 1, message := "m", source := Option.some "qcc" },
       { startLine := 0, startCharacter := 0, endLine := 0, endCharacter := 1,
         severity := Option.some 1, message := "m", source := Option.some "clangd" }] :=
  c3_dedupe_pair.2
    { startLine := 0, startCharacter := 0, endLine := 0, endCharacter := 1,
      severity := Option.some 1, message := "m", source := Option.some "qcc" }
    (Option.some "qcc") (Option.some "clangd") (by decide)

/-- Membership in the non-empty first-occurrence deduplication: an element
appears exactly when it is non-empty, occurs in the input, and was not
already seen. -/
theorem mem_dedupeNonEmptyGo (l : List String) :
    ∀ (seen : List String) (s : String),
      s ∈ dedupeNonEmptyGo seen l ↔ (s ≠ "" ∧ s ∈ l ∧ s ∉ seen) := by
  induction l with
  | nil => intro seen s; simp [dedupeNonEmptyGo]
  | cons e rest ih =>
    intro seen s
    by_cases he : e = "" ∨ e ∈ seen
    · rw [show dedupeNonEmptyGo seen (e :: rest) = dedupeNonEmptyGo seen rest from by
        rw [dedupeNonEmptyGo, if_pos he]]
      rw [ih seen s]
      simp only [List.mem_cons]
      have hse : s = e → s = "" ∨ s ∈ seen := fun h => h ▸ he
      tauto
    · rw [show dedupeNonEmptyGo seen (e :: rest) =
          e :: dedupeNonEmptyGo (e :: seen) rest from by
        rw [dedupeNonEmptyGo, if_neg he]]
      push_neg at he
      simp only [List.mem_cons, ih (e :: seen) s]
      have hse1 : s = e → s ≠ "" := fun h => h ▸ he.1
      have hse2 : s = e → s ∉ seen := fun h => h ▸ he.2
      tauto

/-- The non-empty first-occurrence deduplication has no duplicates. -/
theorem nodup_dedupeNonEmptyGo (l : List String) :
    ∀ seen : List String, (dedupeNonEmptyGo seen l).Nodup := by
  induction l with
  | nil => intro seen; simp [dedupeNonEmptyGo]
  | cons e rest ih =>
    intro seen
    by_cases he : e = "" ∨ e ∈ seen
    · rw [show dedupeNonEmptyGo seen (e :: rest) = dedupeNonEmptyGo seen rest from by
        rw [dedupeNonEmptyGo, if_pos he]]
      exact ih seen
    · rw [show dedupeNonEmptyGo seen (e :: rest) =
          e :: dedupeNonEmptyGo (e :: seen) rest from by
        rw [dedupeNonEmptyGo, if_neg he]]
      refine List.nodup_cons.mpr ⟨?_, ih (e :: seen)⟩
      intro hmem
      rw [mem_dedupeNonEmptyGo] at hmem
      exact hmem.2.2 (List.mem_cons_self e seen)

/-- C6 counterexample: the overlay supplies qcc.includePaths as a present
key with value only the directory /b, but the merged result is the
base-then-overlay union, not the overlay's value; the claim promises that
a present overlay key takes the overlay's value. -/
theorem c6_merge_counterexample :
    (mergeSettings { defaultSettings with qcc := { includePaths := ["/a"] } }
        { qcc := Option.some { includePaths := Option.some ["/b"] } }).qcc.includePaths =
      ["/a", "/b"] ∧
    (mergeSettings { defaultSettings with qcc := { includePaths := ["/a"] } }
        { qcc := Option.some { includePaths := Option.some ["/b"] } }).qcc.includePaths ≠
      ["/b"] := by
  decide

/-- C6 (amended): the merge is left-biased toward the overlay for every
top-level key and every key nested in the clangd group (a present key
takes the overlay value, an absent key falls through to the base), while
qcc.includePaths instead becomes the order-preserving deduplicated union
of base then overlay with empty entries dropped — and keeps the base list
verbatim when the overlay list is absent or empty. -/
theorem c6_merge_settings (base : BasiliskSettings) (ovl : BasiliskSettingsInput) :
    (mergeSettings base ovl).qccPath = ovl.qccPath.getD base.qccPath ∧
    (mergeSettings base ovl).basiliskPath = ovl.basiliskPath.getD base.basiliskPath ∧
    (mergeSettings base ovl).enableDiagnostics =
      ovl.enableDiagnostics.getD base.enableDiagnostics ∧
    (mergeSettings base ovl).diagnosticsOnSave =
      ovl.diagnosticsOnSave.getD base.diagnosticsOnSave ∧
    (mergeSettings base ovl).diagnosticsOnType =
      ovl.diagnosticsOnType.getD base.diagnosticsOnType ∧
    (mergeSettings base ovl).maxNumberOfProblems =
      ovl.maxNumberOfProblems.getD base.maxNumberOfProblems ∧
    (mergeSettings base ovl).clangd.enabled =
      (ovl.clangd.bind (fun c => c.enabled)).getD base.clangd.enabled ∧
    (mergeSettings base ovl).clangd.mode =
      (ovl.clangd.bind (fun c => c.mode)).getD base.clangd.mode ∧
    (mergeSettings base ovl).clangd.path =
      (ovl.clangd.bind (fun c => c.path)).getD base.clangd.path ∧
    (mergeSettings base ovl).clangd.args =
      (ovl.clangd.bind (fun c => c.args)).getD base.clangd.args ∧
    (mergeSettings base ovl).clangd.compileCommandsDir =
      (ovl.clangd.bind (fun c => c.compileCommandsDir)).getD
        base.clangd.compileCommandsDir ∧
    (mergeSettings base ovl).clangd.fallbackFlags =
      (ovl.clangd.bind (fun c => c.fallbackFlags)).getD base.clangd.fallbackFlags ∧
    (mergeSettings base ovl).clangd.diagnosticsMode =
      (ovl.clangd.bind (fun c => c.diagnosticsMode)).getD
        base.clangd.diagnosticsMode ∧
    (ovl.qcc.bind (fun q => q.includePaths) = Option.none →
      (mergeSettings base ovl).qcc.includePaths = base.qcc.includePaths) ∧
    (∀ sec, ovl.qcc.bind (fun q => q.includePaths) = Option.some sec → sec = [] →
      (mergeSettings base ovl).qcc.includePaths = base.qcc.includePaths) ∧
    (∀ sec, ovl.qcc.bind (fun q => q.includePaths) = Option.some sec → sec ≠ [] →
      (mergeSettings base ovl).qcc.includePaths.Nodup ∧
      ∀ s, s ∈ (mergeSettings base ovl).qcc.includePaths ↔
        (s ≠ "" ∧ (s ∈ base.qcc.includePaths ∨ s ∈ sec))) := by
  refine ⟨rfl, rfl, rfl, rfl, rfl, rfl, rfl, rfl, rfl, rfl, rfl, rfl, rfl,
    ?_, ?_, ?_⟩
  · intro h
    simp [mergeSettings, mergeStringArrays, h]
  · intro sec h hsec
    subst hsec
    simp [mergeSettings, mergeStringArrays, h]
  · intro sec h hsec
    have hform : (mergeSettings base ovl).qcc.includePaths =
        dedupeNonEmpty (base.qcc.includePaths ++ sec) := by
      simp [mergeSettings, mergeStringArrays, h, List.isEmpty_iff, hsec]
    rw [hform]
    refine ⟨nodup_dedupeNonEmptyGo _ [], fun s => ?_⟩
    rw [dedupeNonEmpty, mem_dedupeNonEmptyGo]
    simp [List.mem_append]

/-- C6 witness: the include-path union and a plain overlay key at concrete
values. -/
theorem c6_merge_settings_witness :
    (mergeSettings { defaultSettings with qcc := { includePaths := ["/a"] } }
        { qcc := Option.some { includePaths := Option.some ["/b"] } }).qcc.includePaths.Nodup :=
  ((c6_merge_settings { defaultSettings with qcc := { includePaths := ["/a"] } }
      { qcc := Option.some { includePaths := Option.some ["/b"] } }).2.2.2.2.2.2.2.2.2.2.2.2.2.2.2
    ["/b"] rfl (by decide)).1

/-- C1 counterexample: with include directories containing /a/b c and /d,
the built invocation passes a bare -I token followed by the directory as a
separate token, and contains no single-token form; the claim promises
exactly one single-token -I directory argument per directory and no bare
-I token. Duplicate directories are nevertheless collapsed. -/
theorem c1_qcc_args_counterexample :
    buildQccArgs "/a/b c" Option.none "/tmp" ["/a/b c", "/d", "/d"] "t.c" =
      ["-Wall", "-fsyntax-only", "-I", "/a/b c", "-I", "/d", "t.c"] ∧
    "-I" ∈ buildQccArgs "/a/b c" Option.none "/tmp" ["/a/b c", "/d", "/d"] "t.c" ∧
    "-I/a/b c" ∉ buildQccArgs "/a/b c" Option.none "/tmp" ["/a/b c", "/d", "/d"] "t.c" ∧
    "-I/d" ∉ buildQccArgs "/a/b c" Option.none "/tmp" ["/a/b c", "/d", "/d"] "t.c" := by
  decide

/-- C1 (amended): the qcc invocation contains, after the fixed flags and
before the temp file basename, the two separate tokens -I and the
directory for each distinct non-empty collected include directory, in
first-occurrence order: the deduplicated directory list has no duplicates
and contains exactly the non-empty collected directories, so no directory
appears twice even if it occurs twice in the input. -/
theorem c1_qcc_args (odir : String) (src : Option String) (tdir : String)
    (paths : List String) (tbase : String) :
    buildQccArgs odir src tdir paths tbase =
      ["-Wall", "-fsyntax-only"] ++
      (dedupeNonEmpty (rawIncludeDirs odir src tdir paths)).flatMap
        (fun d => ["-I", d]) ++ [tbase] ∧
    (dedupeNonEmpty (rawIncludeDirs odir src tdir paths)).Nodup ∧
    (∀ d, d ∈ dedupeNonEmpty (rawIncludeDirs odir src tdir paths) ↔
      (d ≠ "" ∧ d ∈ rawIncludeDirs odir src tdir paths)) := by
  refine ⟨rfl, nodup_dedupeNonEmptyGo _ [], fun d => ?_⟩
  rw [dedupeNonEmpty, mem_dedupeNonEmptyGo]
  simp

/-- C7 counterexample: an arrival whose generation is still the latest,
under the default settings (diagnostics mode filtered, diagnostics on type
disabled): the policy is applied and the result cached, but nothing is
republished, because publication is gated on the diagnosticsOnType
setting; the claim promises a republish for every still-latest arrival. -/
theorem c7_clangd_arrival_counterexample :
    ((clangdArrivalStamp
        { localVersion := Option.none, localDiags := Option.none,
          clangdDiags := Option.none, clangdGeneration := Option.none,
          published := Option.none }).2).clangdGeneration =
      Option.some ((clangdArrivalStamp
        { localVersion := Option.none, localDiags := Option.none,
          clangdDiags := Option.none, clangdGeneration := Option.none,
          published := Option.none }).1) ∧
    (clangdArrivalComplete defaultSettings (Option.some "")
        ((clangdArrivalStamp
          { localVersion := Option.none, localDiags := Option.none,
            clangdDiags := Option.none, clangdGeneration := Option.none,
            published := Option.none }).2)
        ((clangdArrivalStamp
          { localVersion := Option.none, localDiags := Option.none,
            clangdDiags := Option.none, clangdGeneration := Option.none,
            published := Option.none }).1)
        [{ startLine := 0, startCharacter := 0, endLine := 0, endCharacter := 1,
           severity := Option.some 2, message := "w", source := Option.some "clangd" }]).clangdDiags =
      Option.some
        [{ startLine := 0, startCharacter := 0, endLine := 0, endCharacter := 1,
           severity := Option.some 2, message := "w", source := Option.some "clangd" }] ∧
    (clangdArrivalComplete defaultSettings (Option.some "")
        ((clangdArrivalStamp
          { localVersion := Option.none, localDiags := Option.none,
            clangdDiags := Option.none, clangdGeneration := Option.none,
            published := Option.none }).2)
        ((clangdArrivalStamp
          { localVersion := Option.none, localDiags := Option.none,
            clangdDiags := Option.none, clangdGeneration := Option.none,
            published := Option.none }).1)
        [{ startLine := 0, startCharacter := 0, endLine := 0, endCharacter := 1,
           severity := Option.some 2, message := "w", source := Option.some "clangd" }]).published =
      Option.none := by
  decide

/-- C7 (amended): an arrival bumps the generation counter; a completion
whose captured generation is no longer the latest leaves the state
untouched (nothing cached, nothing published); a still-latest completion
caches the policy result (none discards all, filtered applies the
Basilisk noise filter while the document is open, all passes through) and
republishes the document's diagnostics only when the resolved settings
enable diagnostics on type, leaving the published set untouched
otherwise. -/
theorem c7_clangd_arrival (settings : BasiliskSettings) (docText : Option String)
    (st : DocumentStore) (gen : Nat) (ds : List Diagnostic) :
    (clangdArrivalStamp st).1 = st.clangdGeneration.getD 0 + 1 ∧
    (clangdArrivalStamp st).2 =
      { st with clangdGeneration := Option.some (st.clangdGeneration.getD 0 + 1) } ∧
    (st.clangdGeneration ≠ Option.some gen →
      clangdArrivalComplete settings docText st gen ds = st) ∧
    (st.clangdGeneration = Option.some gen →
      (clangdArrivalComplete settings docText st gen ds).clangdDiags =
        Option.some
          (applyDiagnosticsPolicy settings.clangd.diagnosticsMode docText ds) ∧
      (settings.diagnosticsOnType = true →
        clangdArrivalComplete settings docText st gen ds =
          publishDiagnostics settings
            { st with
                clangdDiags :=
                  Option.some
                    (applyDiagnosticsPolicy settings.clangd.diagnosticsMode
                      docText ds) }) ∧
      (settings.diagnosticsOnType = false →
        (clangdArrivalComplete settings docText st gen ds).published = st.published ∧
        (clangdArrivalComplete settings docText st gen ds).clangdGeneration =
          st.clangdGeneration)) ∧
    applyDiagnosticsPolicy DiagnosticsMode.none docText ds = [] ∧
    applyDiagnosticsPolicy DiagnosticsMode.all docText ds = ds ∧
    (∀ text, docText = Option.some text →
      applyDiagnosticsPolicy DiagnosticsMode.filtered docText ds =
        filterClangdDiagnostics ds text) := by
  refine ⟨rfl, rfl, ?_, ?_, rfl, rfl, ?_⟩
  · intro h
    simp [clangdArrivalComplete, h]
  · intro h
    refine ⟨?_, ?_, ?_⟩
    · by_cases ht : settings.diagnosticsOnType <;>
        simp [clangdArrivalComplete, h, ht, publishDiagnostics]
    · intro ht
      simp [clangdArrivalComplete, h, ht]
    · intro ht
      simp [clangdArrivalComplete, h, ht]
  · intro text h
    rw [h]
    rfl

/-- C7 witness: a superseded arrival at concrete values is discarded. -/
theorem c7_clangd_arrival_witness :
    clangdArrivalComplete defaultSettings Option.none
        { localVersion := Option.none, localDiags := Option.none,
          clangdDiags := Option.none, clangdGeneration := Option.some 3,
          published := Option.none } 5 [] =
      { localVersion := Option.none, localDiags := Option.none,
        clangdDiags := Option.none, clangdGeneration := Option.some 3,
        published := Option.none } :=
  (c7_clangd_arrival defaultSettings Option.none
      { localVersion := Option.none, localDiags := Option.none,
        clangdDiags := Option.none, clangdGeneration := Option.some 3,
        published := Option.none } 5 []).2.2.1 (by decide)

/-- C5 counterexample: the line error.c:5: all good matches only the bare
file:line: message pattern; its message component, all good, contains
none of the error indicators, yet a diagnostic is produced, because the
source gates on the whole line (whose file component contains error). -/
theorem c5_parse_counterexample :
    parseGccOutput "error.c:5: all good" =
      [{ file := "error.c", line := 5, column := 1,
         severity := GccSeverity.error, message := "all good" }] ∧
    matchGccFull "error.c:5: all good".toList = Option.none ∧
    matchGccNoCol "error.c:5: all good".toList = Option.none ∧
    errorIndicators.any (fun ind => strIncludes "all good" ind) = false := by
  decide

/-- C5 (amended): per output line the three patterns are tried in order
and the first match wins; a line matching only the bare file:line: message
pattern produces an error diagnostic at column one exactly when the whole
line (not the message component) contains one of the error-indicating
substrings. -/
theorem c5_parse_patterns (line : String) :
    (∀ d, matchGccFull line.toList = Option.some d →
      parseGccLine line = Option.some d) ∧
    (matchGccFull line.toList = Option.none →
      ∀ d, matchGccNoCol line.toList = Option.some d →
        parseGccLine line = Option.some d) ∧
    (matchGccFull line.toList = Option.none →
      matchGccNoCol line.toList = Option.none →
      ∀ f l msg, matchGccBare line.toList = Option.some (f, l, msg) →
        (parseGccLine line =
            Option.some
              { file := f, line := l, column := 1,
                severity := GccSeverity.error, message := msg } ↔
          errorIndicators.any (fun ind => strIncludes line ind) = true)) ∧
    (matchGccFull line.toList = Option.none →
      matchGccNoCol line.toList = Option.none →
      matchGccBare line.toList = Option.none →
      parseGccLine line = Option.none) := by
  refine ⟨?_, ?_, ?_, ?_⟩
  · intro d h
    unfold parseGccLine
    rw [h]
  · intro h1 d h2
    unfold parseGccLine
    rw [h1, h2]
  · intro h1 h2 f l msg h3
    unfold parseGccLine
    split
    · rename_i d hd
      rw [h1] at hd
      simp at hd
    · split
      · rename_i d hd
        rw [h2] at hd
        simp at hd
      · split
        · rename_i f2 l2 msg2 hbare
          rw [h3] at hbare
          obtain ⟨rfl, rfl, rfl⟩ : f = f2 ∧ l = l2 ∧ msg = msg2 := by
            simpa using hbare
          by_cases hg : errorIndicators.any (fun ind => strIncludes line ind) = true
          · simp [hg]
          · simp [hg]
        · rename_i hbare
          rw [h3] at hbare
          simp at hbare
  · intro h1 h2 h3
    unfold parseGccLine
    rw [h1, h2, h3]

/-- C5 witness: a bare-pattern line containing an indicator produces the
gated diagnostic. -/
theorem c5_parse_patterns_witness :
    parseGccLine "x.c:2: undefined symbol" =
      Option.some
        { file := "x.c", line := 2, column := 1,
          severity := GccSeverity.error, message := "undefined symbol" } :=
  ((c5_parse_patterns "x.c:2: undefined symbol").2.2.1 (by decide) (by decide)
    "x.c" 2 "undefined symbol" (by decide)).mpr (by decide)

/-- Digit bytes produced with sufficient fuel are decimal digit bytes. -/
theorem natDigitBytesAux_mem {fuel n : Nat} (h : n < fuel) :
    ∀ b ∈ natDigitBytesAux fuel n, 48 ≤ b ∧ b ≤ 57 := by
  induction fuel generalizing n with
  | zero => omega
  | succ f ih =>
    intro b hb
    rw [natDigitBytesAux] at hb
    by_cases hn : n < 10
    · rw [if_pos hn] at hb
      simp at hb
      omega
    · rw [if_neg hn] at hb
      simp at hb
      rcases hb with hb | hb
      · have hdiv := Nat.div_lt_self (by omega : 0 < n) (by omega : 1 < 10)
        exact ih (by omega) b hb
      · have : n % 10 < 10 := Nat.mod_lt _ (by omega)
        omega

/-- Decimal digit bytes of a number are non-empty. -/
theorem natDigitBytes_ne_nil (n : Nat) : natDigitBytes n ≠ [] := by
  rw [natDigitBytes, natDigitBytesAux]
  by_cases hn : n < 10 <;> simp [hn]

/-- Reading back the decimal digit bytes of a number recovers it. -/
theorem digitsValBytes_natDigitBytesAux {fuel n : Nat} (h : n < fuel) :
    digitsValBytes (natDigitBytesAux fuel n) = n := by
  induction fuel generalizing n with
  | zero => omega
  | succ f ih =>
    rw [natDigitBytesAux]
    by_cases hn : n < 10
    · rw [if_pos hn]
      simp [digitsValBytes]
    · rw [if_neg hn]
      have hdiv := Nat.div_lt_self (by omega : 0 < n) (by omega : 1 < 10)
      have hmod := Nat.div_add_mod n 10
      simp only [digitsValBytes, List.foldl_append, List.foldl_cons, List.foldl_nil]
      have hrec : digitsValBytes (natDigitBytesAux f (n / 10)) = n / 10 :=
        ih (by omega)
      rw [digitsValBytes] at hrec
      rw [hrec]
      omega

/-- Reading back the decimal digit bytes of a number recovers it. -/
theorem digitsValBytes_natDigitBytes (n : Nat) :
    digitsValBytes (natDigitBytes n) = n :=
  digitsValBytes_natDigitBytesAux (by omega)

/-- Bytes of the encoded header before the terminator. -/
theorem contentLengthHeader_bytes :
    asciiCodes "Content-Length: " =
      [67, 111, 110, 116, 101, 110, 116, 45, 76, 101, 110, 103, 116, 104, 58, 32] := by
  decide

/-- No byte of the header part of a frame is a carriage return. -/
theorem headerPart_no13 (n : Nat) :
    ∀ b ∈ asciiCodes "Content-Length: " ++ natDigitBytes n, b ≠ 13 := by
  intro b hb
  rcases List.mem_append.mp hb with h | h
  · rw [contentLengthHeader_bytes] at h
    simp at h
    omega
  · have := natDigitBytesAux_mem (by omega : n < n + 1) b h
    omega

/-- Every byte of the header part of a frame is seven-bit. -/
theorem headerPart_lt128 (n : Nat) :
    ∀ b ∈ asciiCodes "Content-Length: " ++ natDigitBytes n, b < 128 := by
  intro b hb
  rcases List.mem_append.mp hb with h | h
  · rw [contentLengthHeader_bytes] at h
    simp at h
    omega
  · have := natDigitBytesAux_mem (by omega : n < n + 1) b h
    omega

/-- The terminator search steps over a byte that is not a carriage
return. -/
theorem findTerm_cons_ne13 {c : Nat} (rest : List Nat) (hc : c ≠ 13) :
    findTerm (c :: rest) = (findTerm rest).map (· + 1) := by
  rw [findTerm, if_neg]
  intro h
  injection h with h1 h2
  exact hc h1

/-- A buffer without carriage returns has no terminator. -/
theorem findTerm_no13 {l : List Nat} (h : ∀ b ∈ l, b ≠ 13) :
    findTerm l = Option.none := by
  induction l with
  | nil => rfl
  | cons c rest ih =>
    rw [findTerm_cons_ne13 rest (h c (by simp)), ih (fun b hb => h b (by simp [hb]))]
    rfl

/-- Skipping a carriage-return-free block shifts the terminator index. -/
theorem findTerm_append_no13 {pre : List Nat} (l : List Nat)
    (h : ∀ b ∈ pre, b ≠ 13) :
    findTerm (pre ++ l) = (findTerm l).map (· + pre.length) := by
  induction pre with
  | nil => simp
  | cons c rest ih =>
    rw [List.cons_append, findTerm_cons_ne13 _ (h c (by simp)),
      ih (fun b hb => h b (by simp [hb]))]
    cases hf : findTerm l with
    | none => rfl
    | some a =>
      simp
      omega

/-- The terminator is found at the head of the terminator bytes. -/
theorem findTerm_term (r : List Nat) :
    findTerm (13 :: 10 :: 13 :: 10 :: r) = Option.some 0 := by
  rw [findTerm, if_pos]
  simp

/-- A proper prefix of the terminator contains no terminator. -/
theorem findTerm_take_term {k : Nat} (hk : k ≤ 3) :
    findTerm ([13, 10, 13, 10].take k) = Option.none := by
  interval_cases k <;> decide

/-- The ascii mask leaves seven-bit bytes alone. -/
theorem map_mod128_eq {l : List Nat} (h : ∀ b ∈ l, b < 128) :
    l.map (· % 128) = l := by
  induction l with
  | nil => rfl
  | cons c rest ih =>
    rw [List.map_cons, Nat.mod_eq_of_lt (h c (by simp)),
      ih (fun b hb => h b (by simp [hb]))]

/-- Digit bytes are not whitespace. -/
theorem dropWhileWs_digits {ds : List Nat} (h : ∀ b ∈ ds, 48 ≤ b ∧ b ≤ 57) :
    ds.dropWhile isWsByte = ds := by
  cases ds with
  | nil => rfl
  | cons d rest =>
    have hd := h d (by simp)
    have : isWsByte d = false := by
      simp [isWsByte]
      omega
    simp [List.dropWhile, this]

/-- Digit bytes are all digits for the take-while scan. -/
theorem takeWhileDigits_digits {ds : List Nat} (h : ∀ b ∈ ds, 48 ≤ b ∧ b ≤ 57) :
    ds.takeWhile isDigitByte = ds := by
  induction ds with
  | nil => rfl
  | cons d rest ih =>
    have hd := h d (by simp)
    have hdd : isDigitByte d = true := by
      simp [isDigitByte]
      omega
    simp [List.takeWhile, hdd, ih (fun b hb => h b (by simp [hb]))]

/-- The header regular expression finds the encoded length in the decoded
header of a frame. -/
theorem findContentLength_header (n : Nat) :
    findContentLength (asciiCodes "Content-Length: " ++ natDigitBytes n) =
      Option.some n := by
  have hdigits : ∀ b ∈ natDigitBytes n, 48 ≤ b ∧ b ≤ 57 :=
    natDigitBytesAux_mem (by omega)
  have hdropKw : dropLitCI clKeyword
      ([67, 111, 110, 116, 101, 110, 116, 45, 76, 101, 110, 103, 116, 104, 58, 32] ++
        natDigitBytes n) = Option.some (32 :: natDigitBytes n) := rfl
  have htry : tryContentLengthAt
      ([67, 111, 110, 116, 101, 110, 116, 45, 76, 101, 110, 103, 116, 104, 58, 32] ++
        natDigitBytes n) = Option.some n := by
    have h32 : (32 :: natDigitBytes n).dropWhile isWsByte = natDigitBytes n := by
      rw [List.dropWhile_cons]
      simp only [show isWsByte 32 = true from rfl, if_true]
      exact dropWhileWs_digits hdigits
    rw [tryContentLengthAt, hdropKw]
    simp only [h32]
    rw [takeWhileDigits_digits hdigits]
    rw [if_neg (by simp [List.isEmpty_iff, natDigitBytes_ne_nil n])]
    rw [digitsValBytes_natDigitBytes n]
  rw [contentLengthHeader_bytes]
  rw [show ([67, 111, 110, 116, 101, 110, 116, 45, 76, 101, 110, 103, 116, 104, 58, 32] ++
      natDigitBytes n) =
      67 :: ([111, 110, 116, 101, 110, 116, 45, 76, 101, 110, 103, 116, 104, 58, 32] ++
        natDigitBytes n) from rfl]
  rw [findContentLength]
  rw [show (67 :: ([111, 110, 116, 101, 110, 116, 45, 76, 101, 110, 103, 116, 104, 58, 32] ++
      natDigitBytes n)) =
      ([67, 111, 110, 116, 101, 110, 116, 45, 76, 101, 110, 103, 116, 104, 58, 32] ++
        natDigitBytes n) from rfl]
  rw [htry]

/-- A buffer without a terminator is left untouched by the reassembly
loop. -/
theorem processBuffer_no_term {b : List Nat} (h : findTerm b = Option.none) :
    processBuffer b = ([], b) := by
  rw [processBuffer]
  split
  · rfl
  · simp_all

/-- A buffer whose frame is incomplete (header found, length read, body
bytes missing) is left untouched by the reassembly loop. -/
theorem processBuffer_incomplete {b : List Nat} {k n : Nat}
    (h : findTerm b = Option.some k)
    (h2 : findContentLength ((b.take k).map (· % 128)) = Option.some n)
    (h3 : b.length < k + 4 + n) : processBuffer b = ([], b) := by
  rw [processBuffer]
  split
  · rfl
  · rename_i k2 hk2
    rw [h] at hk2
    cases hk2
    split
    · simp_all
    · rename_i n2 hn2
      rw [h2] at hn2
      cases hn2
      rw [if_pos h3]

/-- One complete frame at the head of the buffer is extracted and the loop
continues on the remainder. -/
theorem processBuffer_complete {b : List Nat} {k n : Nat}
    (h : findTerm b = Option.some k)
    (h2 : findContentLength ((b.take k).map (· % 128)) = Option.some n)
    (h3 : ¬ b.length < k + 4 + n) :
    processBuffer b =
      ((b.drop (k + 4)).take n :: (processBuffer (b.drop (k + 4 + n))).1,
       (processBuffer (b.drop (k + 4 + n))).2) := by
  rw [processBuffer]
  split
  · rename_i hn
    rw [h] at hn
    cases hn
  · rename_i k2 hk2
    rw [h] at hk2
    cases hk2
    split
    · simp_all
    · rename_i n2 hn2
      rw [h2] at hn2
      cases hn2
      rw [if_neg h3]

/-- The encoded frame splits as header, terminator, payload. -/
theorem encodeFrame_split (payload : List Nat) :
    encodeFrame payload =
      (asciiCodes "Content-Length: " ++ natDigitBytes payload.length) ++
        ([13, 10, 13, 10] ++ payload) := by
  simp [encodeFrame, List.append_assoc]

/-- Length of the encoded frame. -/
theorem encodeFrame_length (payload : List Nat) :
    (encodeFrame payload).length =
      (asciiCodes "Content-Length: " ++ natDigitBytes payload.length).length +
        (4 + payload.length) := by
  rw [encodeFrame_split]
  simp
  omega

/-- A strict prefix of an encoded frame is left untouched by the
reassembly loop: the decoder waits for the missing bytes. -/
theorem processBuffer_take_frame (payload : List Nat) (m : Nat)
    (hm : m < (encodeFrame payload).length) :
    processBuffer ((encodeFrame payload).take m) =
      ([], (encodeFrame payload).take m) := by
  have hno13 := headerPart_no13 payload.length
  have hlt128 := headerPart_lt128 payload.length
  have hE := encodeFrame_split payload
  have hlenE := encodeFrame_length payload
  rcases Nat.lt_or_ge m
      ((asciiCodes "Content-Length: " ++ natDigitBytes payload.length).length + 4) with
    hcase | hcase
  · apply processBuffer_no_term
    rcases le_or_lt m
        (asciiCodes "Content-Length: " ++ natDigitBytes payload.length).length with
      hm2 | hm2
    · have ht : (encodeFrame payload).take m =
          (asciiCodes "Content-Length: " ++ natDigitBytes payload.length).take m := by
        rw [hE, List.take_append_eq_append_take, Nat.sub_eq_zero_of_le hm2,
          List.take_zero, List.append_nil]
      rw [ht]
      exact findTerm_no13 (fun b hb => hno13 b (List.take_subset _ _ hb))
    · have ht : (encodeFrame payload).take m =
          (asciiCodes "Content-Length: " ++ natDigitBytes payload.length) ++
            [13, 10, 13, 10].take
              (m - (asciiCodes "Content-Length: " ++ natDigitBytes payload.length).length) := by
        rw [hE, List.take_append_eq_append_take,
          List.take_of_length_le (Nat.le_of_lt hm2), List.take_append_eq_append_take]
        have hz : m - (asciiCodes "Content-Length: " ++
            natDigitBytes payload.length).length - ([13, 10, 13, 10] : List Nat).length = 0 := by
          simp only [List.length_cons, List.length_nil]
          omega
        rw [hz, List.take_zero, List.append_nil]
      rw [ht, findTerm_append_no13 _ hno13, findTerm_take_term (by omega)]
      rfl
  · have ht : (encodeFrame payload).take m =
        (asciiCodes "Content-Length: " ++ natDigitBytes payload.length) ++
          ([13, 10, 13, 10] ++
            payload.take
              (m - (asciiCodes "Content-Length: " ++
                natDigitBytes payload.length).length - 4)) := by
      rw [hE, List.take_append_eq_append_take, List.take_of_length_le (by omega),
        List.take_append_eq_append_take,
        List.take_of_length_le (by simp only [List.length_cons, List.length_nil]; omega),
        show (([13, 10, 13, 10] : List Nat).length) = 4 from rfl]
    have hfind : findTerm ((encodeFrame payload).take m) =
        Option.some
          (asciiCodes "Content-Length: " ++ natDigitBytes payload.length).length := by
      rw [ht, findTerm_append_no13 _ hno13]
      simp only [List.cons_append, List.nil_append]
      rw [findTerm_term]
      simp
    have htake : ((encodeFrame payload).take m).take
        (asciiCodes "Content-Length: " ++ natDigitBytes payload.length).length =
        asciiCodes "Content-Length: " ++ natDigitBytes payload.length := by
      rw [ht, List.take_left]
    have hclen : findContentLength
        ((((encodeFrame payload).take m).take
          (asciiCodes "Content-Length: " ++ natDigitBytes payload.length).length).map
            (· % 128)) = Option.some payload.length := by
      rw [htake, map_mod128_eq hlt128, findContentLength_header]
    have hblen : ((encodeFrame payload).take m).length = m := by
      rw [List.length_take]
      omega
    exact processBuffer_incomplete hfind hclen (by omega)

/-- The reassembly loop extracts exactly the payload from one complete
encoded frame and leaves an empty buffer. -/
theorem processBuffer_frame (payload : List Nat) :
    processBuffer (encodeFrame payload) = ([payload], []) := by
  have hno13 := headerPart_no13 payload.length
  have hlt128 := headerPart_lt128 payload.length
  have hE := encodeFrame_split payload
  have hlenE := encodeFrame_length payload
  have hfind : findTerm (encodeFrame payload) =
      Option.some
        (asciiCodes "Content-Length: " ++ natDigitBytes payload.length).length := by
    rw [hE, findTerm_append_no13 _ hno13]
    simp only [List.cons_append, List.nil_append]
    rw [findTerm_term]
    simp
  have htake : (encodeFrame payload).take
      (asciiCodes "Content-Length: " ++ natDigitBytes payload.length).length =
      asciiCodes "Content-Length: " ++ natDigitBytes payload.length := by
    rw [hE, List.take_left]
  have hclen : findContentLength
      (((encodeFrame payload).take
        (asciiCodes "Content-Length: " ++ natDigitBytes payload.length).length).map
          (· % 128)) = Option.some payload.length := by
    rw [htake, map_mod128_eq hlt128, findContentLength_header]
  rw [processBuffer_complete hfind hclen (by omega)]
  have hdrop : (encodeFrame payload).drop
      ((asciiCodes "Content-Length: " ++ natDigitBytes payload.length).length + 4) =
      payload := by
    have hgroup : encodeFrame payload =
        ((asciiCodes "Content-Length: " ++ natDigitBytes payload.length) ++
          [13, 10, 13, 10]) ++ payload := by
      rw [hE, ← List.append_assoc]
    rw [hgroup,
      show (asciiCodes "Content-Length: " ++ natDigitBytes payload.length).length + 4 =
        ((asciiCodes "Content-Length: " ++ natDigitBytes payload.length) ++
          [13, 10, 13, 10]).length from by
        simp only [List.length_append, List.length_cons, List.length_nil]
        try omega,
      List.drop_left]
  have hdrop2 : (encodeFrame payload).drop
      ((asciiCodes "Content-Length: " ++ natDigitBytes payload.length).length + 4 +
        payload.length) = [] := by
    apply List.drop_eq_nil_of_le
    omega
  rw [hdrop, hdrop2, List.take_length, processBuffer_no_term (b := []) rfl]

/-- Feeding chunks whose joined contents are empty changes nothing. -/
theorem feedFrom_empty_join {chunks : List (List Nat)}
    (h : chunks.flatten = []) (msgs : List (List Nat)) :
    feedFrom (msgs, []) chunks = (msgs, []) := by
  induction chunks with
  | nil => rfl
  | cons c rest ih =>
    simp only [List.flatten_cons, List.append_eq_nil] at h
    rw [show feedFrom (msgs, []) (c :: rest) =
        feedFrom (msgs ++ (processBuffer ([] ++ c)).1, (processBuffer ([] ++ c)).2)
          rest from by simp [feedFrom, handleData]]
    rw [h.1]
    rw [show processBuffer ([] ++ []) = ([], []) from processBuffer_no_term rfl]
    simpa using ih h.2

/-- Feeding any chunking of the tail of one encoded frame, starting from a
strictly shorter buffered prefix, dispatches exactly the payload and
drains the buffer. -/
theorem feedFrom_frame (payload : List Nat) :
    ∀ (chunks : List (List Nat)) (buf : List Nat) (msgs : List (List Nat)),
      buf ++ chunks.flatten = encodeFrame payload →
      buf.length < (encodeFrame payload).length →
      feedFrom (msgs, buf) chunks = (msgs ++ [payload], []) := by
  intro chunks
  induction chunks with
  | nil =>
    intro buf msgs h hlt
    rw [List.flatten_nil, List.append_nil] at h
    subst h
    exact absurd hlt (lt_irrefl _)
  | cons c rest ih =>
    intro buf msgs h hlt
    rw [List.flatten_cons] at h
    have hjoin : (buf ++ c) ++ rest.flatten = encodeFrame payload := by
      rw [List.append_assoc]
      exact h
    have hle : (buf ++ c).length ≤ (encodeFrame payload).length := by
      have := congrArg List.length hjoin
      simp only [List.length_append] at this ⊢
      omega
    have hstep : feedFrom (msgs, buf) (c :: rest) =
        feedFrom (msgs ++ (processBuffer (buf ++ c)).1, (processBuffer (buf ++ c)).2)
          rest := by
      simp [feedFrom, handleData]
    rcases Nat.lt_or_ge (buf ++ c).length (encodeFrame payload).length with hlt2 | hge
    · have hbc : buf ++ c = (encodeFrame payload).take (buf ++ c).length := by
        conv_rhs => rw [← hjoin]
        rw [List.take_left]
      have hquiet : processBuffer (buf ++ c) = ([], buf ++ c) := by
        rw [hbc]
        exact processBuffer_take_frame payload _ hlt2
      rw [hstep, hquiet]
      simpa using ih (buf ++ c) msgs hjoin hlt2
    · have heq : (buf ++ c).length = (encodeFrame payload).length :=
        Nat.le_antisymm hle hge
      have hrest : rest.flatten = [] := by
        have := congrArg List.length hjoin
        simp only [List.length_append] at this heq
        rw [← List.length_eq_zero]
        omega
      have hbc : buf ++ c = encodeFrame payload := by
        rw [hrest, List.append_nil] at hjoin
        exact hjoin
      rw [hstep, hbc, processBuffer_frame payload]
      exact feedFrom_empty_join hrest (msgs ++ [payload])

/-- C4: encoding a message with send to the Content-Length wire format and
feeding the bytes to the incremental decoder handleData, in one chunk or
split at any points across any number of chunks, dispatches exactly one
body, byte-for-byte equal to the encoded payload (so JSON.parse, a
function of the body text, yields a message deep-equal to the original),
and leaves the buffer empty. -/
theorem c4_frame_roundtrip (payload : List Nat) (chunks : List (List Nat))
    (h : chunks.flatten = encodeFrame payload) :
    feedChunks chunks = ([payload], []) := by
  rw [feedChunks]
  have h0 : ([] : List Nat) ++ chunks.flatten = encodeFrame payload := by
    simpa using h
  have hascii : (asciiCodes "Content-Length: ").length = 16 := by decide
  have hlt : ([] : List Nat).length < (encodeFrame payload).length := by
    rw [encodeFrame_length payload]
    simp [hascii]
  simpa using feedFrom_frame payload chunks [] [] h0 hlt

/-- C4 witness: a two-chunk split of a concrete frame dispatches exactly
its payload. -/
theorem c4_frame_roundtrip_witness :
    feedChunks [(encodeFrame [104, 105]).take 5, (encodeFrame [104, 105]).drop 5] =
      ([[104, 105]], []) :=
  c4_frame_roundtrip [104, 105]
    [(encodeFrame [104, 105]).take 5, (encodeFrame [104, 105]).drop 5]
    (by simp [List.flatten])

end QccLsp
